import Mathlib

/-!
Verification of the incremental player-statistics scraping pipeline
(`getPlayersData` and its helpers from `scraping/utils.py`).

The Python source is shallowly embedded: the rendered page that the
extractor reads is modelled by `PlayerPage`, the per-player loop body by
`processLink`, the whole driver by `getPlayersData`, and the dataset file
by an `Option (List MatchRecord)` (with `none` for a missing file).  The
fetch step (Selenium + BeautifulSoup up to the point where the parallel
lists are read off) is modelled by an environment `String → Except String
PlayerPage`, errors standing for any exception raised while fetching or
locating required markup regions.  The schema-sensitive part of loading
(`pd.read_csv` followed by `data.Name.unique()`) is embedded separately
over a raw `CsvFile` so that files with arbitrary column sets can be fed
to it.
-/

deriving instance DecidableEq for Except

/-- One incident marker inside a match row: the `title` attribute of the
inner span, i.e. `i.find("span").get("title")` in the source. -/
structure IncidentMarker where
  title : String
deriving DecidableEq

/-- The data the extractor reads off a rendered player page: the profile
info (club, nationality) and the parallel per-match lists scraped from the
`player-matches-table` region. -/
structure PlayerPage where
  team : String
  nationality : String
  dates : List String
  homeTeams : List String
  awayTeams : List String
  results : List String
  minutesRaw : List String
  ratingsRaw : List String
  incidents : List (List IncidentMarker)
deriving DecidableEq

/-- One row of the dataset: the fixed 14-column record. -/
structure MatchRecord where
  name : String
  club : String
  nationality : String
  date : String
  home : String
  away : String
  result : String
  minutes : String
  ratings : String
  yellow : Nat
  red : Nat
  goals : Nat
  assists : Nat
  mom : Nat
deriving DecidableEq

/-- `re.sub("[^0-9]", "", s)`: delete every character that is not a
decimal digit. -/
def cleanMinutes (s : String) : String :=
  String.mk (s.data.filter (fun c => c.isDigit))

/-- `re.sub("[^0-9\.]", "", s)`: delete every character that is neither a
decimal digit nor a period. -/
def cleanRating (s : String) : String :=
  String.mk (s.data.filter (fun c => c.isDigit || c == '.'))

/-- `0 if len(incident) == 0 else sum([1 if i...get("title") == label else 0
for i in incident])` — the per-match count of markers carrying `label`. -/
def countIncidents (incident : List IncidentMarker) (label : String) : Nat :=
  if incident.length = 0 then 0
  else (incident.map (fun i => if i.title = label then 1 else 0)).sum

/-- The five per-match counts in the order (yellow, red, mom, goals,
assists), as computed by the five list comprehensions in the source. -/
def aggregateIncidents (incident : List IncidentMarker) : Nat × Nat × Nat × Nat × Nat :=
  (countIncidents incident "Yellow Card",
   countIncidents incident "Red Card",
   countIncidents incident "Man of the match",
   countIncidents incident "Goal",
   countIncidents incident "Assist")

/-- The message pandas raises when the column lists passed to
`pd.DataFrame` do not all have the same length. -/
def lengthMismatchMsg : String :=
  "ValueError: All arrays must be of the same length"

/-- Building the per-player row batch: `pd.DataFrame({...})` over the
parallel lists.  pandas raises if any list's length differs from
`n = len(dates)`; otherwise one `MatchRecord` per match index is produced,
with `Name`/`Club`/`Nationality` broadcast across all `n` rows. -/
def extractRows (player_name : String) (p : PlayerPage) : Except String (List MatchRecord) :=
  if p.homeTeams.length = p.dates.length ∧ p.awayTeams.length = p.dates.length ∧
     p.results.length = p.dates.length ∧ p.minutesRaw.length = p.dates.length ∧
     p.ratingsRaw.length = p.dates.length ∧ p.incidents.length = p.dates.length then
    Except.ok ((List.range p.dates.length).map (fun i =>
      { name := player_name
        club := p.team
        nationality := p.nationality
        date := p.dates.getD i ""
        home := p.homeTeams.getD i ""
        away := p.awayTeams.getD i ""
        result := p.results.getD i ""
        minutes := cleanMinutes (p.minutesRaw.getD i "")
        ratings := cleanRating (p.ratingsRaw.getD i "")
        yellow := countIncidents (p.incidents.getD i []) "Yellow Card"
        red := countIncidents (p.incidents.getD i []) "Red Card"
        goals := countIncidents (p.incidents.getD i []) "Goal"
        assists := countIncidents (p.incidents.getD i []) "Assist"
        mom := countIncidents (p.incidents.getD i []) "Man of the match" }))
  else Except.error lengthMismatchMsg

/-- Python's `str.split(sep)` for a one-character separator, on the
character list: keeps empty segments, and splitting the empty string
yields one empty segment. -/
def splitOnChar (sep : Char) : List Char → List (List Char)
  | [] => [[]]
  | c :: rest =>
    match splitOnChar sep rest with
    | [] => if c = sep then [[], []] else [[c]]
    | r :: rs => if c = sep then [] :: r :: rs else (c :: r) :: rs

/-- `link.split("/")[-1].replace("-", " ")`: the canonical player
identifier derived from a profile link. -/
def playerNameOfLink (link : String) : String :=
  let last := (splitOnChar '/' link.data).getLastD []
  String.mk (last.map (fun c => if c = '-' then ' ' else c))

/-- `data.Name.unique()` over typed rows: the distinct `Name` values. -/
def uniqueNames (rows : List MatchRecord) : List String :=
  (rows.map (fun r => r.name)).dedup

/-- The load step over a well-formed dataset file: a present file yields
its rows and their distinct names, a missing file yields the empty
dataset and the empty processed set. -/
def loadRun : Option (List MatchRecord) → List MatchRecord × List String
  | none => ([], [])
  | some rows => (rows, uniqueNames rows)

/-- The driver's state across loop iterations: the in-memory dataset
(`data`), the persisted file, the `processed_names` list, the errors
printed by the `except` clause (identifier and message), and the list of
links for which a fetch was attempted. -/
structure PipelineState where
  data : List MatchRecord
  file : Option (List MatchRecord)
  processed : List String
  errors : List (String × String)
  fetched : List String
deriving DecidableEq

/-- One iteration of the driver loop for one link: skip if the derived
identifier is already in `processed_names`; otherwise fetch and extract,
and either commit (append rows, rewrite the file in full, prepend the
identifier to `processed_names`) or record the exception and move on. -/
def processLink (env : String → Except String PlayerPage)
    (st : PipelineState) (link : String) : PipelineState :=
  let player_name := playerNameOfLink link
  if player_name ∈ st.processed then st
  else
    let st1 := { st with fetched := st.fetched ++ [link] }
    match env link with
    | Except.error e => { st1 with errors := st1.errors ++ [(player_name, e)] }
    | Except.ok page =>
      match extractRows player_name page with
      | Except.error e => { st1 with errors := st1.errors ++ [(player_name, e)] }
      | Except.ok rows =>
        let newData := st1.data ++ rows
        { st1 with data := newData, file := some newData,
                   processed := player_name :: st1.processed }

/-- `list(set([link for club in links for link in club]))`: flatten the
per-club link lists and deduplicate by exact string equality. -/
def linksFlat (links : List (List String)) : List String :=
  links.flatten.dedup

/-- The driver's state right after the load step. -/
def initState (file : Option (List MatchRecord)) : PipelineState :=
  { data := (loadRun file).1, file := file, processed := (loadRun file).2,
    errors := [], fetched := [] }

/-- The whole driver `getPlayersData`: resolve the target list, load or
create the dataset, then run the per-link loop. -/
def getPlayersData (env : String → Except String PlayerPage)
    (links : List (List String)) (file : Option (List MatchRecord)) : PipelineState :=
  (linksFlat links).foldl (processLink env) (initState file)

/-- The fixed 14-column schema. -/
def fixedSchema : List String :=
  ["Name", "Club", "Nationality", "Date", "Home", "Away", "Result",
   "Minutes", "Ratings", "Yellow", "Red", "Goals", "Assists", "MOM"]

/-- A raw tabular file as `pd.read_csv` delivers it: a header naming the
columns and the cell rows. -/
structure CsvFile where
  columns : List String
  rows : List (List String)
deriving DecidableEq

/-- The distinct values of the `Name` column of a raw file. -/
def csvNames (df : CsvFile) : List String :=
  (df.rows.map (fun r => r.getD (df.columns.indexOf "Name") "")).dedup

/-- The message raised by `data.Name` when the frame has no `Name`
column. -/
def nameAttrErrMsg : String :=
  "AttributeError: 'DataFrame' object has no attribute 'Name'"

/-- The load step over a raw file, as the source performs it: a missing
file yields the empty dataset with the fixed schema; a present file is
parsed as-is and only the access `data.Name.unique()` can fail, namely
exactly when the file has no `Name` column.  No comparison against the
fixed schema is performed. -/
def loadDataset : Option CsvFile → Except String (CsvFile × List String)
  | none => Except.ok ({ columns := fixedSchema, rows := [] }, [])
  | some df =>
    if "Name" ∈ df.columns then Except.ok (df, csvNames df)
    else Except.error nameAttrErrMsg


/-- A rendered page with one match row, for concrete runs. -/
def onePage : PlayerPage :=
  { team := "T", nationality := "N", dates := ["d1"], homeTeams := ["H"],
    awayTeams := ["A"], results := ["1:0"], minutesRaw := ["90'"],
    ratingsRaw := ["7.8*"], incidents := [[⟨"Goal"⟩]] }

/-- A page whose home-team list is shorter than its date list, so row
construction fails. -/
def badPage : PlayerPage :=
  { onePage with homeTeams := [] }

/-- A page with an empty match table: every parallel list is empty. -/
def emptyPage : PlayerPage :=
  { team := "T", nationality := "N", dates := [], homeTeams := [],
    awayTeams := [], results := [], minutesRaw := [], ratingsRaw := [],
    incidents := [] }

/-- The single row extracted from `onePage` for a player named `nm`. -/
def mkRow (nm : String) : MatchRecord :=
  { name := nm, club := "T", nationality := "N", date := "d1", home := "H",
    away := "A", result := "1:0", minutes := "90", ratings := "7.8",
    yellow := 0, red := 0, goals := 1, assists := 0, mom := 0 }

/-- An environment on which every fetch and parse succeeds with one match. -/
def envOne : String → Except String PlayerPage := fun _ => Except.ok onePage

/-- An environment on which every page parses but has no match rows. -/
def envEmpty : String → Except String PlayerPage := fun _ => Except.ok emptyPage

/-- An environment on which exactly the link `t/b-b` yields a malformed
page (extraction fails) and every other link succeeds with one match. -/
def envMixed : String → Except String PlayerPage := fun l =>
  if l = "t/b-b" then Except.ok badPage else Except.ok onePage

/-- A page with two match rows, for the row-count checks. -/
def twoPage : PlayerPage :=
  { team := "T", nationality := "N", dates := ["d1", "d2"],
    homeTeams := ["H1", "H2"], awayTeams := ["A1", "A2"],
    results := ["1:0", "2:2"], minutesRaw := ["90'", "12'"],
    ratingsRaw := ["7.8*", "6.1"],
    incidents := [[⟨"Yellow Card"⟩], []] }

/-- The two rows extracted from `twoPage` for a player named `x y`. -/
def rowsTwo : List MatchRecord :=
  [{ name := "x y", club := "T", nationality := "N", date := "d1",
     home := "H1", away := "A1", result := "1:0", minutes := "90",
     ratings := "7.8", yellow := 1, red := 0, goals := 0, assists := 0,
     mom := 0 },
   { name := "x y", club := "T", nationality := "N", date := "d2",
     home := "H2", away := "A2", result := "2:2", minutes := "12",
     ratings := "6.1", yellow := 0, red := 0, goals := 0, assists := 0,
     mom := 0 }]

/-- A dataset file whose header lacks the `Minutes` column but has the
other thirteen, `Name` included. -/
def dfMissingMinutes : CsvFile :=
  { columns := ["Name", "Club", "Nationality", "Date", "Home", "Away",
                "Result", "Ratings", "Yellow", "Red", "Goals", "Assists",
                "MOM"],
    rows := [] }

/-- A dataset file whose header lacks the `Name` column. -/
def dfNoName : CsvFile :=
  { columns := ["Foo"], rows := [["a"]] }


theorem processLink_skip {env st link} (h : playerNameOfLink link ∈ st.processed) :
    processLink env st link = st := by
  simp [processLink, h]

theorem processLink_fetchErr {env st link e} (h : playerNameOfLink link ∉ st.processed)
    (he : env link = Except.error e) :
    processLink env st link =
      { st with fetched := st.fetched ++ [link],
                errors := st.errors ++ [(playerNameOfLink link, e)] } := by
  simp [processLink, h, he]

theorem processLink_extractErr {env st link p e} (h : playerNameOfLink link ∉ st.processed)
    (he : env link = Except.ok p)
    (hx : extractRows (playerNameOfLink link) p = Except.error e) :
    processLink env st link =
      { st with fetched := st.fetched ++ [link],
                errors := st.errors ++ [(playerNameOfLink link, e)] } := by
  simp [processLink, h, he, hx]

theorem processLink_commit {env st link p rows} (h : playerNameOfLink link ∉ st.processed)
    (he : env link = Except.ok p)
    (hx : extractRows (playerNameOfLink link) p = Except.ok rows) :
    processLink env st link =
      { st with fetched := st.fetched ++ [link],
                data := st.data ++ rows,
                file := some (st.data ++ rows),
                processed := playerNameOfLink link :: st.processed } := by
  simp [processLink, h, he, hx]

theorem processLink_cases (env : String → Except String PlayerPage)
    (st : PipelineState) (link : String) :
    processLink env st link = st ∨
    (∃ e, processLink env st link =
      { st with fetched := st.fetched ++ [link],
                errors := st.errors ++ [(playerNameOfLink link, e)] }) ∨
    (∃ rows, processLink env st link =
      { st with fetched := st.fetched ++ [link],
                data := st.data ++ rows,
                file := some (st.data ++ rows),
                processed := playerNameOfLink link :: st.processed }) := by
  by_cases h : playerNameOfLink link ∈ st.processed
  · exact Or.inl (processLink_skip h)
  · cases he : env link with
    | error e => exact Or.inr (Or.inl ⟨e, processLink_fetchErr h he⟩)
    | ok p =>
      cases hx : extractRows (playerNameOfLink link) p with
      | error e => exact Or.inr (Or.inl ⟨e, processLink_extractErr h he hx⟩)
      | ok rows => exact Or.inr (Or.inr ⟨rows, processLink_commit h he hx⟩)

theorem processLink_processed_sub (env : String → Except String PlayerPage)
    (st : PipelineState) (link : String) :
    ∀ x ∈ st.processed, x ∈ (processLink env st link).processed := by
  rcases processLink_cases env st link with h | ⟨e, h⟩ | ⟨rows, h⟩ <;>
    rw [h] <;> intro x hx <;> simp [hx]

theorem foldl_processed_sub (env : String → Except String PlayerPage) :
    ∀ (L : List String) (st : PipelineState),
      ∀ x ∈ st.processed, x ∈ (L.foldl (processLink env) st).processed
  | [], _ => fun _ hx => hx
  | l :: L, st => fun x hx =>
    foldl_processed_sub env L (processLink env st l) x
      (processLink_processed_sub env st l x hx)

theorem processLink_data_ext (env : String → Except String PlayerPage)
    (st : PipelineState) (link : String) :
    ∃ t, (processLink env st link).data = st.data ++ t := by
  rcases processLink_cases env st link with h | ⟨e, h⟩ | ⟨rows, h⟩
  · exact ⟨[], by rw [h, List.append_nil]⟩
  · exact ⟨[], by rw [h, List.append_nil]⟩
  · exact ⟨rows, by rw [h]⟩

theorem foldl_data_ext (env : String → Except String PlayerPage) :
    ∀ (L : List String) (st : PipelineState),
      ∃ t, (L.foldl (processLink env) st).data = st.data ++ t
  | [], st => ⟨[], (List.append_nil st.data).symm⟩
  | l :: L, st => by
    obtain ⟨t1, h1⟩ := processLink_data_ext env st l
    obtain ⟨t2, h2⟩ := foldl_data_ext env L (processLink env st l)
    exact ⟨t1 ++ t2, by rw [List.foldl_cons, h2, h1, List.append_assoc]⟩

theorem processLink_filePres {env : String → Except String PlayerPage}
    {st : PipelineState} {link : String} (h : st.file = some st.data) :
    (processLink env st link).file = some (processLink env st link).data := by
  rcases processLink_cases env st link with hc | ⟨e, hc⟩ | ⟨rows, hc⟩ <;> rw [hc] <;>
    simp [h]

theorem foldl_filePres (env : String → Except String PlayerPage) :
    ∀ (L : List String) (st : PipelineState), st.file = some st.data →
      (L.foldl (processLink env) st).file = some (L.foldl (processLink env) st).data
  | [], _ => fun h => h
  | l :: L, st => fun h =>
    foldl_filePres env L (processLink env st l) (processLink_filePres h)

theorem foldl_fileInv (env : String → Except String PlayerPage) :
    ∀ (L : List String) (st : PipelineState),
      ((L.foldl (processLink env) st).file = st.file ∧
       (L.foldl (processLink env) st).data = st.data) ∨
      (L.foldl (processLink env) st).file = some (L.foldl (processLink env) st).data
  | [], _ => Or.inl ⟨rfl, rfl⟩
  | l :: L, st => by
    rw [List.foldl_cons]
    rcases processLink_cases env st l with hc | ⟨e, hc⟩ | ⟨rows, hc⟩
    · rw [hc]; exact foldl_fileInv env L st
    · rcases foldl_fileInv env L (processLink env st l) with ⟨h1, h2⟩ | h
      · exact Or.inl ⟨by rw [h1, hc], by rw [h2, hc]⟩
      · exact Or.inr h
    · exact Or.inr (foldl_filePres env L _ (by rw [hc]))

theorem processLink_fetched_nonskip {env : String → Except String PlayerPage}
    {st : PipelineState} {link : String} (h : playerNameOfLink link ∉ st.processed) :
    (processLink env st link).fetched = st.fetched ++ [link] := by
  cases he : env link with
  | error e => rw [processLink_fetchErr h he]
  | ok p =>
    cases hx : extractRows (playerNameOfLink link) p with
    | error e => rw [processLink_extractErr h he hx]
    | ok rows => rw [processLink_commit h he hx]

theorem foldl_skip_not_fetched (env : String → Except String PlayerPage) :
    ∀ (L : List String) (st : PipelineState) (link : String),
      playerNameOfLink link ∈ st.processed → link ∉ st.fetched →
      link ∉ (L.foldl (processLink env) st).fetched
  | [], _, _ => fun _ hnf => hnf
  | l :: L, st, link => fun hmem hnf => by
    rw [List.foldl_cons]
    by_cases hl : playerNameOfLink l ∈ st.processed
    · rw [processLink_skip hl]
      exact foldl_skip_not_fetched env L st link hmem hnf
    · have hne : link ≠ l := fun h' => hl (h' ▸ hmem)
      apply foldl_skip_not_fetched env L (processLink env st l) link
        (processLink_processed_sub env st l _ hmem)
      rw [processLink_fetched_nonskip hl]
      simp [hnf, hne]

theorem extractRows_names {nm : String} {p : PlayerPage} {rows : List MatchRecord}
    (h : extractRows nm p = Except.ok rows) : ∀ r ∈ rows, r.name = nm := by
  unfold extractRows at h
  split at h
  · injection h with h2
    subst h2
    intro r hr
    rw [List.mem_map] at hr
    obtain ⟨i, _, rfl⟩ := hr
    rfl
  · exact absurd h (by simp)

theorem extractRows_lengths {nm : String} {p : PlayerPage} {rows : List MatchRecord}
    (h : extractRows nm p = Except.ok rows) :
    rows.length = p.dates.length ∧
    p.homeTeams.length = p.dates.length ∧ p.awayTeams.length = p.dates.length ∧
    p.results.length = p.dates.length ∧ p.minutesRaw.length = p.dates.length ∧
    p.ratingsRaw.length = p.dates.length ∧ p.incidents.length = p.dates.length := by
  unfold extractRows at h
  split at h
  · injection h with h2
    subst h2
    refine ⟨by simp, ?_⟩
    assumption
  · exact absurd h (by simp)

theorem extractRows_fields {nm : String} {p : PlayerPage} {rows : List MatchRecord}
    (h : extractRows nm p = Except.ok rows) :
    ∀ r ∈ rows, r.name = nm ∧ r.club = p.team ∧ r.nationality = p.nationality := by
  unfold extractRows at h
  split at h
  · injection h with h2
    subst h2
    intro r hr
    rw [List.mem_map] at hr
    obtain ⟨i, _, rfl⟩ := hr
    exact ⟨rfl, rfl, rfl⟩
  · exact absurd h (by simp)

theorem mem_uniqueNames {nm : String} {rows : List MatchRecord} :
    nm ∈ uniqueNames rows ↔ ∃ r ∈ rows, r.name = nm := by
  simp [uniqueNames, List.mem_dedup]

theorem countIncidents_eq_sum (incident : List IncidentMarker) (label : String) :
    countIncidents incident label =
      (incident.map (fun i => if i.title = label then 1 else 0)).sum := by
  cases incident <;> rfl

theorem countIncidents_cons (m : IncidentMarker) (t : List IncidentMarker) (label : String) :
    countIncidents (m :: t) label =
      (if m.title = label then 1 else 0) + countIncidents t label := by
  rw [countIncidents_eq_sum, countIncidents_eq_sum, List.map_cons, List.sum_cons]

theorem countIncidents_eq_countP (incident : List IncidentMarker) (label : String) :
    countIncidents incident label = incident.countP (fun i => i.title == label) := by
  induction incident with
  | nil => rfl
  | cons m t ih =>
    rw [countIncidents_cons, List.countP_cons, ih]
    by_cases h : m.title = label <;> simp [h, Nat.add_comm]

theorem countIncidents_le_length (incident : List IncidentMarker) (label : String) :
    countIncidents incident label ≤ incident.length := by
  rw [countIncidents_eq_countP]
  exact List.countP_le_length _

theorem indicatorSum_le_one (s : String) :
    (if s = "Yellow Card" then 1 else 0) + (if s = "Red Card" then 1 else 0) +
    (if s = "Man of the match" then 1 else 0) + (if s = "Goal" then 1 else 0) +
    (if s = "Assist" then 1 else 0) ≤ 1 := by
  by_cases h1 : s = "Yellow Card"
  · subst h1; decide
  by_cases h2 : s = "Red Card"
  · subst h2; decide
  by_cases h3 : s = "Man of the match"
  · subst h3; decide
  by_cases h4 : s = "Goal"
  · subst h4; decide
  by_cases h5 : s = "Assist"
  · subst h5; decide
  simp [h1, h2, h3, h4, h5]

theorem foldl_lockstep (env : String → Except String PlayerPage) (L : List String) :
    ∀ (s1 s2 : PipelineState),
      s2.data = (L.foldl (processLink env) s1).data →
      s2.file = (L.foldl (processLink env) s1).file →
      (∀ x ∈ s1.processed, x ∈ s2.processed) →
      (∀ r ∈ (L.foldl (processLink env) s1).data, r.name ∈ s2.processed) →
      (L.foldl (processLink env) s2).data = (L.foldl (processLink env) s1).data ∧
      (L.foldl (processLink env) s2).file = (L.foldl (processLink env) s1).file := by
  induction L with
  | nil =>
    intro s1 s2 h2d h2f _ _
    exact ⟨h2d, h2f⟩
  | cons l L ih =>
    intro s1 s2 h2d h2f hsub hnames
    simp only [List.foldl_cons] at h2d h2f hnames ⊢
    by_cases h1 : playerNameOfLink l ∈ s1.processed
    · rw [processLink_skip h1] at h2d h2f hnames ⊢
      rw [processLink_skip (hsub _ h1)]
      exact ih s1 s2 h2d h2f hsub hnames
    · by_cases h2 : playerNameOfLink l ∈ s2.processed
      · rw [processLink_skip h2]
        apply ih (processLink env s1 l) s2 h2d h2f ?_ hnames
        rcases processLink_cases env s1 l with hc | ⟨e, hc⟩ | ⟨rows, hc⟩ <;> rw [hc]
        · exact hsub
        · exact hsub
        · intro x hx
          rcases List.mem_cons.mp hx with rfl | hx'
          · exact h2
          · exact hsub _ hx'
      · cases he : env l with
        | error e =>
          rw [processLink_fetchErr h1 he] at h2d h2f hnames ⊢
          rw [processLink_fetchErr h2 he]
          exact ih _ _ h2d h2f hsub hnames
        | ok p =>
          cases hx : extractRows (playerNameOfLink l) p with
          | error e =>
            rw [processLink_extractErr h1 he hx] at h2d h2f hnames ⊢
            rw [processLink_extractErr h2 he hx]
            exact ih _ _ h2d h2f hsub hnames
          | ok rows =>
            have hrows : rows = [] := by
              by_contra hne
              obtain ⟨r, hr⟩ := List.exists_mem_of_ne_nil rows hne
              have hrn : r.name = playerNameOfLink l := extractRows_names hx r hr
              have hmem1 : r ∈ (L.foldl (processLink env) (processLink env s1 l)).data := by
                obtain ⟨t, ht⟩ := foldl_data_ext env L (processLink env s1 l)
                rw [ht, processLink_commit h1 he hx]
                exact List.mem_append.mpr (Or.inl (List.mem_append.mpr (Or.inr hr)))
              have hn2 := hnames r hmem1
              rw [hrn] at hn2
              exact h2 hn2
            subst hrows
            have hc1 : processLink env s1 l =
                { s1 with fetched := s1.fetched ++ [l], data := s1.data,
                          file := some s1.data,
                          processed := playerNameOfLink l :: s1.processed } := by
              rw [processLink_commit h1 he hx]
              simp
            have hc2 : processLink env s2 l =
                { s2 with fetched := s2.fetched ++ [l], data := s2.data,
                          file := some s2.data,
                          processed := playerNameOfLink l :: s2.processed } := by
              rw [processLink_commit h2 he hx]
              simp
            rw [hc1] at h2d h2f hnames ⊢
            rw [hc2]
            have hP : (L.foldl (processLink env)
                  { s1 with fetched := s1.fetched ++ [l], data := s1.data,
                            file := some s1.data,
                            processed := playerNameOfLink l :: s1.processed }).file =
                some ((L.foldl (processLink env)
                  { s1 with fetched := s1.fetched ++ [l], data := s1.data,
                            file := some s1.data,
                            processed := playerNameOfLink l :: s1.processed }).data) :=
              foldl_filePres env L _ rfl
            refine ih _ _ ?_ ?_ ?_ ?_
            · exact h2d
            · show some s2.data = _
              rw [hP, ← h2d]
            · intro x hx
              rcases List.mem_cons.mp hx with rfl | hx'
              · exact List.mem_cons_self _ _
              · exact List.mem_cons_of_mem _ (hsub _ hx')
            · intro r hr
              exact List.mem_cons_of_mem _ (hnames r hr)

theorem foldl_second_run (env : String → Except String PlayerPage)
    (L : List String) (file0 : Option (List MatchRecord)) :
    (L.foldl (processLink env)
        (initState (L.foldl (processLink env) (initState file0)).file)).data
      = (L.foldl (processLink env) (initState file0)).data ∧
    (L.foldl (processLink env)
        (initState (L.foldl (processLink env) (initState file0)).file)).file
      = (L.foldl (processLink env) (initState file0)).file := by
  apply foldl_lockstep
  · rcases foldl_fileInv env L (initState file0) with ⟨hf, hd⟩ | hP
    · rw [hf, hd]
      rfl
    · rw [hP]
      rfl
  · rfl
  · rcases foldl_fileInv env L (initState file0) with ⟨hf, _⟩ | hP
    · rw [hf]
      exact fun x hx => hx
    · rw [hP]
      intro x hx
      cases file0 with
      | none => exact absurd hx (by simp [initState, loadRun])
      | some rows0 =>
        obtain ⟨r, hr, hrn⟩ := mem_uniqueNames.mp (by simpa [initState, loadRun] using hx)
        obtain ⟨t, ht⟩ := foldl_data_ext env L (initState (some rows0))
        exact mem_uniqueNames.mpr
          ⟨r, by rw [ht]; exact List.mem_append.mpr (Or.inl hr), hrn⟩
  · rcases foldl_fileInv env L (initState file0) with ⟨hf, hd⟩ | hP
    · rw [hf, hd]
      intro r hr
      cases file0 with
      | none => exact absurd hr (by simp [initState, loadRun])
      | some rows0 => exact mem_uniqueNames.mpr ⟨r, hr, rfl⟩
    · rw [hP]
      intro r hr
      exact mem_uniqueNames.mpr ⟨r, hr, rfl⟩

/-- Claim C6: for every list of incident markers attached to one match,
the aggregator returns five counts, each equal to the number of markers
whose label exactly equals the corresponding fixed vocabulary label; an
empty marker list yields all-zero counts; unrecognized labels are counted
toward no category; and the concrete marker list
[Yellow Card, Goal, Goal, UnknownLabel] yields (1, 0, 0, 2, 0). -/
theorem claim_C6_incident_aggregation :
    (∀ (incident : List IncidentMarker) (label : String),
        countIncidents incident label = incident.countP (fun m => m.title == label)) ∧
    aggregateIncidents [] = (0, 0, 0, 0, 0) ∧
    aggregateIncidents [⟨"Yellow Card"⟩, ⟨"Goal"⟩, ⟨"Goal"⟩, ⟨"UnknownLabel"⟩]
      = (1, 0, 0, 2, 0) ∧
    (∀ (incident : List IncidentMarker) (m : IncidentMarker),
        m.title ≠ "Yellow Card" → m.title ≠ "Red Card" →
        m.title ≠ "Man of the match" → m.title ≠ "Goal" → m.title ≠ "Assist" →
        aggregateIncidents (incident ++ [m]) = aggregateIncidents incident) := by
  refine ⟨countIncidents_eq_countP, by decide, by decide, ?_⟩
  intro incident m h1 h2 h3 h4 h5
  unfold aggregateIncidents
  have key : ∀ label, m.title ≠ label →
      countIncidents (incident ++ [m]) label = countIncidents incident label := by
    intro label hne
    rw [countIncidents_eq_countP, countIncidents_eq_countP, List.countP_append]
    simp [List.countP_cons, hne]
  rw [key _ h1, key _ h2, key _ h3, key _ h4, key _ h5]

/-- Claim C6 witness: the countP characterization and the
unrecognized-marker lemma at concrete inputs. -/
theorem claim_C6_witness :
    countIncidents [⟨"Goal"⟩] "Goal"
      = List.countP (fun m : IncidentMarker => m.title == "Goal")
          ([⟨"Goal"⟩] : List IncidentMarker) ∧
    aggregateIncidents ([⟨"Goal"⟩] ++ [⟨"Mystery"⟩]) = aggregateIncidents [⟨"Goal"⟩] := by
  obtain ⟨h1, -, -, h4⟩ := claim_C6_incident_aggregation
  exact ⟨h1 [⟨"Goal"⟩] "Goal",
         h4 [⟨"Goal"⟩] ⟨"Mystery"⟩ (by decide) (by decide) (by decide) (by decide)
           (by decide)⟩

/-- Claim C10: each marker contributes to at most one of the five category
counts (the five labels are pairwise distinct and matching is exact), so
the five counts of one marker group sum to at most the group size, and
each individual count is at most the group size. -/
theorem claim_C10_marker_bound :
    ∀ incident : List IncidentMarker,
      (countIncidents incident "Yellow Card" + countIncidents incident "Red Card" +
       countIncidents incident "Man of the match" + countIncidents incident "Goal" +
       countIncidents incident "Assist" ≤ incident.length) ∧
      (∀ label, countIncidents incident label ≤ incident.length) := by
  intro incident
  constructor
  · induction incident with
    | nil => decide
    | cons m t ih =>
      rw [countIncidents_cons, countIncidents_cons, countIncidents_cons,
          countIncidents_cons, countIncidents_cons, List.length_cons]
      have hs := indicatorSum_le_one m.title
      omega
  · intro label
    exact countIncidents_le_length incident label

theorem cleanMinutes_data (s : String) :
    (cleanMinutes s).data = s.data.filter (fun c => c.isDigit) := rfl

theorem cleanRating_data (s : String) :
    (cleanRating s).data = s.data.filter (fun c => c.isDigit || c == '.') := rfl

/-- Claim C7 counterexample: the ratings cleaner does not reduce the
output to a single period — on the raw rating text `1..2` the cleaned
result keeps both periods, so the claim that the cleaned result retains
only decimal digits and a single period is false at this input. -/
theorem claim_C7_counterexample :
    cleanRating "1..2" = "1..2" ∧ ¬ (cleanRating "1..2").data.count '.' ≤ 1 := by
  exact ⟨by decide, by decide⟩

/-- Claim C7 as amended: minutes cleaning removes exactly the non-digit
characters (digits are kept with order and multiplicity) with empty-string
passthrough, and `90'` cleans to `90`; ratings cleaning removes exactly
the characters that are neither digits nor periods — every period of the
input is kept, not just a single one — with empty-string passthrough, and
`7.8*` cleans to `7.8`. -/
theorem claim_C7_amended :
    (∀ s : String, (cleanMinutes s).data.Sublist s.data) ∧
    (∀ (s : String) (c : Char), c ∈ (cleanMinutes s).data → c.isDigit = true) ∧
    (∀ (s : String) (c : Char), c.isDigit = true →
        (cleanMinutes s).data.count c = s.data.count c) ∧
    cleanMinutes "" = "" ∧ cleanMinutes "90'" = "90" ∧
    (∀ s : String, (cleanRating s).data.Sublist s.data) ∧
    (∀ (s : String) (c : Char), c ∈ (cleanRating s).data →
        c.isDigit = true ∨ c = '.') ∧
    (∀ (s : String) (c : Char), c.isDigit = true ∨ c = '.' →
        (cleanRating s).data.count c = s.data.count c) ∧
    (∀ s : String, (cleanRating s).data.count '.' = s.data.count '.') ∧
    cleanRating "" = "" ∧ cleanRating "7.8*" = "7.8" := by
  refine ⟨?_, ?_, ?_, rfl, by decide, ?_, ?_, ?_, ?_, rfl, by decide⟩
  · intro s
    rw [cleanMinutes_data]
    exact List.filter_sublist s.data
  · intro s c hc
    rw [cleanMinutes_data] at hc
    exact (List.mem_filter.mp hc).2
  · intro s c hc
    rw [cleanMinutes_data]
    exact List.count_filter hc
  · intro s
    rw [cleanRating_data]
    exact List.filter_sublist s.data
  · intro s c hc
    rw [cleanRating_data] at hc
    have := (List.mem_filter.mp hc).2
    simpa using this
  · intro s c hc
    rw [cleanRating_data]
    apply List.count_filter
    rcases hc with h | h <;> simp [h]
  · intro s
    rw [cleanRating_data]
    apply List.count_filter
    simp

/-- Claim C7 witness: the hypothesis-bearing parts of the amended claim at
concrete inputs — counting a digit and counting the period. -/
theorem claim_C7_witness :
    ('9'.isDigit = true) ∧
    (cleanMinutes "x9y9").data.count '9' = "x9y9".data.count '9' ∧
    ('7' ∈ (cleanRating "7.8*").data → '7'.isDigit = true ∨ '7' = '.') ∧
    (cleanRating "a.b.c").data.count '.' = "a.b.c".data.count '.' := by
  obtain ⟨-, -, h3, -, -, -, h7, h8, -, -⟩ := claim_C7_amended
  exact ⟨by decide, h3 "x9y9" '9' (by decide), h7 "7.8*" '7',
         h8 "a.b.c" '.' (Or.inr rfl)⟩

/-- Claim C9: the target set resolver flattens all inner lists and
deduplicates by exact string equality — the result has no duplicates and
exactly the members of the flattened input, it is permutation-invariant in
the flattened input, an empty input (no clubs, or only clubs with empty
lists) yields the empty result, and `[[A,B],[B,C]]` resolves to exactly
the set `{A,B,C}`. -/
theorem claim_C9_target_resolution :
    (∀ links : List (List String), (linksFlat links).Nodup) ∧
    (∀ (links : List (List String)) (x : String),
        x ∈ linksFlat links ↔ x ∈ links.flatten) ∧
    (∀ links1 links2 : List (List String),
        links1.flatten.Perm links2.flatten →
        (linksFlat links1).Perm (linksFlat links2)) ∧
    linksFlat [] = [] ∧
    (∀ links : List (List String), (∀ l ∈ links, l = []) → linksFlat links = []) ∧
    (linksFlat [["A", "B"], ["B", "C"]]).toFinset = {"A", "B", "C"} := by
  refine ⟨?_, ?_, ?_, rfl, ?_, by decide⟩
  · intro links
    exact List.nodup_dedup _
  · intro links x
    exact List.mem_dedup
  · intro l1 l2 h
    exact h.dedup
  · intro links h
    show links.flatten.dedup = []
    rw [List.flatten_eq_nil_iff.mpr h]
    rfl

/-- Claim C9 witness: the permutation-invariance and all-empty parts of
the claim at concrete inputs. -/
theorem claim_C9_witness :
    (linksFlat [["A"], ["B"]]).Perm (linksFlat [["B"], ["A"]]) ∧
    linksFlat [[], []] = [] := by
  obtain ⟨-, -, h3, -, h5, -⟩ := claim_C9_target_resolution
  exact ⟨h3 [["A"], ["B"]] [["B"], ["A"]] (by decide), h5 [[], []] (by decide)⟩

/-- Claim C4 counterexample: the load step performs no schema validation —
a dataset file missing the required `Minutes` column (its column set
differing from the fixed 14-column schema) loads successfully instead of
raising, and the run proceeds. -/
theorem claim_C4_counterexample :
    "Minutes" ∉ dfMissingMinutes.columns ∧
    dfMissingMinutes.columns ≠ fixedSchema ∧
    "Minutes" ∈ fixedSchema ∧
    loadDataset (some dfMissingMinutes) = Except.ok (dfMissingMinutes, []) := by
  exact ⟨by decide, by decide, by decide, by decide⟩

/-- Claim C4 as amended: a missing file loads as the empty dataset with
the fixed schema and empty processed set; a present file loads
successfully whenever it has a `Name` column, whatever its other columns,
and the load fails (before any fetch) exactly when the `Name` column is
absent — no comparison against the full 14-column schema is made. -/
theorem claim_C4_amended :
    loadDataset none = Except.ok ({ columns := fixedSchema, rows := [] }, []) ∧
    (∀ df : CsvFile, "Name" ∈ df.columns →
        loadDataset (some df) = Except.ok (df, csvNames df)) ∧
    (∀ df : CsvFile, "Name" ∉ df.columns →
        loadDataset (some df) = Except.error nameAttrErrMsg) := by
  refine ⟨rfl, ?_, ?_⟩ <;> intro df h <;> simp [loadDataset, h]

/-- Claim C4 witness: the amended load characterization at two concrete
files — one with a `Name` column and one without. -/
theorem claim_C4_witness :
    ("Name" ∈ dfMissingMinutes.columns ∧
     loadDataset (some dfMissingMinutes)
       = Except.ok (dfMissingMinutes, csvNames dfMissingMinutes)) ∧
    ("Name" ∉ dfNoName.columns ∧
     loadDataset (some dfNoName) = Except.error nameAttrErrMsg) := by
  obtain ⟨-, h2, h3⟩ := claim_C4_amended
  exact ⟨⟨by decide, h2 _ (by decide)⟩, ⟨by decide, h3 _ (by decide)⟩⟩

/-- Claim C8: for every player whose extraction succeeds, the number of
emitted rows equals the length of the extracted date list and of every
other parallel list (home, away, results, minutes, ratings, incident
groups), and Name/Club/Nationality are broadcast identically across all
rows. -/
theorem claim_C8_row_count :
    ∀ (nm : String) (p : PlayerPage) (rows : List MatchRecord),
      extractRows nm p = Except.ok rows →
      (rows.length = p.dates.length ∧
       p.homeTeams.length = p.dates.length ∧ p.awayTeams.length = p.dates.length ∧
       p.results.length = p.dates.length ∧ p.minutesRaw.length = p.dates.length ∧
       p.ratingsRaw.length = p.dates.length ∧ p.incidents.length = p.dates.length) ∧
      (∀ r ∈ rows, r.name = nm ∧ r.club = p.team ∧ r.nationality = p.nationality) := by
  intro nm p rows h
  exact ⟨extractRows_lengths h, extractRows_fields h⟩

/-- Claim C8 witness: the row-count invariant at a concrete two-match
page. -/
theorem claim_C8_witness :
    extractRows "x y" twoPage = Except.ok rowsTwo ∧
    ((rowsTwo.length = twoPage.dates.length ∧
      twoPage.homeTeams.length = twoPage.dates.length ∧
      twoPage.awayTeams.length = twoPage.dates.length ∧
      twoPage.results.length = twoPage.dates.length ∧
      twoPage.minutesRaw.length = twoPage.dates.length ∧
      twoPage.ratingsRaw.length = twoPage.dates.length ∧
      twoPage.incidents.length = twoPage.dates.length) ∧
     (∀ r ∈ rowsTwo, r.name = "x y" ∧ r.club = twoPage.team ∧
        r.nationality = twoPage.nationality)) :=
  ⟨by decide, claim_C8_row_count "x y" twoPage rowsTwo (by decide)⟩

/-- Claim C1: per-target failure isolation — in a three-target run where
the second target's extraction fails, the error is caught at the
per-target boundary, recorded with the player identifier and error
message, and the run continues: rows for targets 1 and 3 are committed
and persisted, and exactly one error is recorded for target 2.  The
driver is a total function, so no fetch or extraction error propagates
past it. -/
theorem claim_C1_failure_isolation
    (env : String → Except String PlayerPage) (l1 l2 l3 : String)
    (p1 p2 p3 : PlayerPage) (e : String) (rows1 rows3 : List MatchRecord)
    (file0 : Option (List MatchRecord))
    (hnodup : [l1, l2, l3].Nodup)
    (hn1 : playerNameOfLink l1 ∉ (loadRun file0).2)
    (hn2 : playerNameOfLink l2 ∉ (loadRun file0).2)
    (hn3 : playerNameOfLink l3 ∉ (loadRun file0).2)
    (hne21 : playerNameOfLink l2 ≠ playerNameOfLink l1)
    (hne31 : playerNameOfLink l3 ≠ playerNameOfLink l1)
    (he1 : env l1 = Except.ok p1)
    (hx1 : extractRows (playerNameOfLink l1) p1 = Except.ok rows1)
    (he2 : env l2 = Except.ok p2)
    (hx2 : extractRows (playerNameOfLink l2) p2 = Except.error e)
    (he3 : env l3 = Except.ok p3)
    (hx3 : extractRows (playerNameOfLink l3) p3 = Except.ok rows3) :
    (getPlayersData env [[l1, l2, l3]] file0).data
      = (loadRun file0).1 ++ rows1 ++ rows3 ∧
    (getPlayersData env [[l1, l2, l3]] file0).file
      = some ((loadRun file0).1 ++ rows1 ++ rows3) ∧
    (getPlayersData env [[l1, l2, l3]] file0).errors
      = [(playerNameOfLink l2, e)] := by
  have hflat : linksFlat [[l1, l2, l3]] = [l1, l2, l3] := by
    show ([[l1, l2, l3]] : List (List String)).flatten.dedup = [l1, l2, l3]
    rw [show ([[l1, l2, l3]] : List (List String)).flatten = [l1, l2, l3] by simp]
    exact List.dedup_eq_self.mpr hnodup
  unfold getPlayersData
  rw [hflat]
  simp only [List.foldl_cons, List.foldl_nil]
  rw [processLink_commit (by simpa [initState] using hn1) he1 hx1]
  rw [processLink_extractErr (by simp [initState, hne21, hn2]) he2 hx2]
  rw [processLink_commit (by simp [initState, hne31, hn3]) he3 hx3]
  refine ⟨by simp [initState], by simp [initState], by simp [initState]⟩

/-- Claim C1 witness: the failure-isolation theorem at a concrete run of
three targets of which the second fails extraction. -/
theorem claim_C1_witness :
    (getPlayersData envMixed [["t/a-a", "t/b-b", "t/c-c"]] none).data
      = (loadRun none).1 ++ [mkRow "a a"] ++ [mkRow "c c"] ∧
    (getPlayersData envMixed [["t/a-a", "t/b-b", "t/c-c"]] none).file
      = some ((loadRun none).1 ++ [mkRow "a a"] ++ [mkRow "c c"]) ∧
    (getPlayersData envMixed [["t/a-a", "t/b-b", "t/c-c"]] none).errors
      = [(playerNameOfLink "t/b-b", lengthMismatchMsg)] :=
  claim_C1_failure_isolation envMixed "t/a-a" "t/b-b" "t/c-c" onePage badPage
    onePage lengthMismatchMsg [mkRow "a a"] [mkRow "c c"] none (by decide)
    (by decide) (by decide) (by decide) (by decide) (by decide) (by decide)
    (by decide) (by decide) (by decide) (by decide) (by decide)

/-- Claim C5 counterexample: the skip decision is not made against a
loop-start snapshot.  With an empty dataset (loop-start ProcessedSet is
empty) and two distinct links that normalize to the same identifier, both
links survive worklist deduplication, yet only the first is ever fetched:
the second is skipped — without any error — because the first target's
commit in the same run added the shared identifier to the processed set. -/
theorem claim_C5_counterexample :
    (loadRun (none : Option (List MatchRecord))).2 = [] ∧
    linksFlat [["a/p-x", "b/p-x"]] = ["a/p-x", "b/p-x"] ∧
    playerNameOfLink "a/p-x" = playerNameOfLink "b/p-x" ∧
    (getPlayersData envOne [["a/p-x", "b/p-x"]] none).fetched = ["a/p-x"] ∧
    (getPlayersData envOne [["a/p-x", "b/p-x"]] none).errors = [] := by
  exact ⟨rfl, by decide, by decide, by decide, by decide⟩

/-- Claim C5 as amended: the skip decision is made against the current
`processed_names`, which grows during the run — an iteration whose
identifier is already present (whether from load time or from an earlier
commit of the same run) is a no-op, and in particular when two distinct
links share one identifier and the first commits, the second is skipped,
so only the first is fetched. -/
theorem claim_C5_amended :
    (∀ (env : String → Except String PlayerPage) (st : PipelineState) (link : String),
        playerNameOfLink link ∈ st.processed → processLink env st link = st) ∧
    (∀ (env : String → Except String PlayerPage) (l1 l2 : String)
        (p : PlayerPage) (rows : List MatchRecord),
        l1 ≠ l2 → playerNameOfLink l2 = playerNameOfLink l1 →
        env l1 = Except.ok p →
        extractRows (playerNameOfLink l1) p = Except.ok rows →
        (getPlayersData env [[l1, l2]] none).fetched = [l1]) := by
  constructor
  · intro env st link h
    exact processLink_skip h
  · intro env l1 l2 p rows hne hsame he hx
    have hflat : linksFlat [[l1, l2]] = [l1, l2] := by
      show ([[l1, l2]] : List (List String)).flatten.dedup = [l1, l2]
      rw [show ([[l1, l2]] : List (List String)).flatten = [l1, l2] by simp]
      exact List.dedup_eq_self.mpr (by simp [hne])
    unfold getPlayersData
    rw [hflat]
    simp only [List.foldl_cons, List.foldl_nil]
    rw [processLink_commit (by simp [initState, loadRun]) he hx]
    rw [processLink_skip (by simp [initState, hsame])]
    simp [initState]

/-- Claim C5 witness: the amended skip behaviour at concrete inputs. -/
theorem claim_C5_witness :
    processLink envOne
        { data := [], file := none, processed := ["q"], errors := [], fetched := [] }
        "q"
      = { data := [], file := none, processed := ["q"], errors := [], fetched := [] } ∧
    (getPlayersData envOne [["u/m-m", "v/m-m"]] none).fetched = ["u/m-m"] := by
  obtain ⟨h1, h2⟩ := claim_C5_amended
  exact ⟨h1 envOne _ "q" (by decide),
         h2 envOne "u/m-m" "v/m-m" onePage [mkRow "m m"] (by decide) (by decide)
           (by decide) (by decide)⟩

/-- Claim C3: idempotent resume — for every environment, target universe
and starting dataset file, running the pipeline a second time with the
target links and the dataset file left by the first run commits zero new
rows (the dataset and the file are unchanged by the second run), and
every target whose identifier is among the distinct Name values of the
dataset loaded by the second run is skipped without fetching. -/
theorem claim_C3_idempotent_resume
    (env : String → Except String PlayerPage) (links : List (List String))
    (file0 : Option (List MatchRecord)) :
    (getPlayersData env links (getPlayersData env links file0).file).data
      = (getPlayersData env links file0).data ∧
    (getPlayersData env links (getPlayersData env links file0).file).file
      = (getPlayersData env links file0).file ∧
    (∀ link ∈ linksFlat links,
        playerNameOfLink link ∈ (loadRun (getPlayersData env links file0).file).2 →
        link ∉ (getPlayersData env links (getPlayersData env links file0).file).fetched) := by
  unfold getPlayersData
  refine ⟨(foldl_second_run env (linksFlat links) file0).1,
          (foldl_second_run env (linksFlat links) file0).2, ?_⟩
  intro link _ hmem
  exact foldl_skip_not_fetched env (linksFlat links)
    (initState ((linksFlat links).foldl (processLink env) (initState file0)).file)
    link hmem (List.not_mem_nil link)

/-- Claim C3 witness: idempotent resume at a concrete one-target run whose
first pass commits one row. -/
theorem claim_C3_witness :
    (getPlayersData envOne [["t/p-q"]] (getPlayersData envOne [["t/p-q"]] none).file).data
      = (getPlayersData envOne [["t/p-q"]] none).data ∧
    (getPlayersData envOne [["t/p-q"]] (getPlayersData envOne [["t/p-q"]] none).file).file
      = (getPlayersData envOne [["t/p-q"]] none).file ∧
    "t/p-q" ∉ (getPlayersData envOne [["t/p-q"]]
        (getPlayersData envOne [["t/p-q"]] none).file).fetched := by
  obtain ⟨h1, h2, h3⟩ := claim_C3_idempotent_resume envOne [["t/p-q"]] none
  exact ⟨h1, h2, h3 "t/p-q" (by decide) (by decide)⟩

/-- Claim C2 counterexample: a player whose extraction succeeds with zero
match rows is committed (the file is rewritten — here created as the empty
dataset — and the identifier is recorded in memory, with no error), yet on
restart from the committed file the player is fetched again instead of
being skipped, because zero rows leave no Name value in the dataset. -/
theorem claim_C2_counterexample :
    (getPlayersData envEmpty [["t/p-one"]] none).file = some [] ∧
    (getPlayersData envEmpty [["t/p-one"]] none).processed = ["p one"] ∧
    (getPlayersData envEmpty [["t/p-one"]] none).errors = [] ∧
    (getPlayersData envEmpty [["t/p-one"]]
        (getPlayersData envEmpty [["t/p-one"]] none).file).fetched = ["t/p-one"] := by
  exact ⟨by decide, by decide, by decide, by decide⟩

/-- Claim C2 as amended: after every run the persisted file is either the
untouched input file (when nothing was committed, with the in-memory
dataset still equal to the loaded one) or exactly the in-memory dataset;
the in-memory dataset always extends the loaded rows; and a player
committed with at least one row is skipped (not fetched) on restart from
the committed file, while a fresh player is retried from Pending
(fetched).  A player committed with zero rows is not represented in the
file and is not skipped on restart. -/
theorem claim_C2_amended :
    (∀ (env : String → Except String PlayerPage) (links : List (List String))
        (file0 : Option (List MatchRecord)),
        ((getPlayersData env links file0).file = file0 ∧
         (getPlayersData env links file0).data = (loadRun file0).1) ∨
        (getPlayersData env links file0).file
          = some (getPlayersData env links file0).data) ∧
    (∀ (env : String → Except String PlayerPage) (links : List (List String))
        (file0 : Option (List MatchRecord)),
        ∃ t, (getPlayersData env links file0).data = (loadRun file0).1 ++ t) ∧
    (∀ (env : String → Except String PlayerPage) (l1 l2 : String)
        (p1 : PlayerPage) (rows1 : List MatchRecord),
        env l1 = Except.ok p1 →
        extractRows (playerNameOfLink l1) p1 = Except.ok rows1 →
        rows1 ≠ [] → l1 ≠ l2 →
        playerNameOfLink l2 ≠ playerNameOfLink l1 →
        (getPlayersData env [[l1]] none).file = some rows1 ∧
        (getPlayersData env [[l1, l2]]
            (getPlayersData env [[l1]] none).file).fetched = [l2]) := by
  refine ⟨?_, ?_, ?_⟩
  · intro env links file0
    unfold getPlayersData
    rcases foldl_fileInv env (linksFlat links) (initState file0) with ⟨hf, hd⟩ | hP
    · exact Or.inl ⟨hf, hd⟩
    · exact Or.inr hP
  · intro env links file0
    unfold getPlayersData
    obtain ⟨t, ht⟩ := foldl_data_ext env (linksFlat links) (initState file0)
    exact ⟨t, ht⟩
  · intro env l1 l2 p1 rows1 he hx hrows hne hnename
    have hflat1 : linksFlat [[l1]] = [l1] := by
      show ([[l1]] : List (List String)).flatten.dedup = [l1]
      rw [show ([[l1]] : List (List String)).flatten = [l1] by simp]
      exact List.dedup_eq_self.mpr (by simp)
    have hfile1 : (getPlayersData env [[l1]] none).file = some rows1 := by
      unfold getPlayersData
      rw [hflat1]
      simp only [List.foldl_cons, List.foldl_nil]
      rw [processLink_commit (by simp [initState, loadRun]) he hx]
      simp [initState, loadRun]
    refine ⟨hfile1, ?_⟩
    rw [hfile1]
    have hflat2 : linksFlat [[l1, l2]] = [l1, l2] := by
      show ([[l1, l2]] : List (List String)).flatten.dedup = [l1, l2]
      rw [show ([[l1, l2]] : List (List String)).flatten = [l1, l2] by simp]
      exact List.dedup_eq_self.mpr (by simp [hne])
    have hmem1 : playerNameOfLink l1 ∈ uniqueNames rows1 := by
      obtain ⟨r, hr⟩ := List.exists_mem_of_ne_nil rows1 hrows
      exact mem_uniqueNames.mpr ⟨r, hr, extractRows_names hx r hr⟩
    have hmem2 : playerNameOfLink l2 ∉ uniqueNames rows1 := by
      intro hc
      obtain ⟨r, hr, hrn⟩ := mem_uniqueNames.mp hc
      rw [extractRows_names hx r hr] at hrn
      exact hnename hrn.symm
    unfold getPlayersData
    rw [hflat2]
    simp only [List.foldl_cons, List.foldl_nil]
    rw [@processLink_skip env (initState (some rows1)) l1
          (by simpa [initState, loadRun] using hmem1)]
    rw [@processLink_fetched_nonskip env (initState (some rows1)) l2
          (by simpa [initState, loadRun] using hmem2)]
    simp [initState]

/-- Claim C2 witness: the restart scenario at a concrete run — player
`a b` is committed with one row, and on resume `a b` is skipped while the
fresh player `c d` is fetched. -/
theorem claim_C2_witness :
    (getPlayersData envOne [["t/a-b"]] none).file = some [mkRow "a b"] ∧
    (getPlayersData envOne [["t/a-b", "t/c-d"]]
        (getPlayersData envOne [["t/a-b"]] none).file).fetched = ["t/c-d"] := by
  obtain ⟨-, -, h3⟩ := claim_C2_amended
  exact h3 envOne "t/a-b" "t/c-d" onePage [mkRow "a b"] (by decide) (by decide)
    (by decide) (by decide) (by decide)
